import Mathlib

/-!
Verification of the PackTabs persistence-and-synchronization core.

The development shallowly embeds the TypeScript sources:
  - src/utils/storage.ts     (Serializer, Repository, Retry Controller, Conflict Resolver)
  - src/utils/tabManager.ts  (Tab Session Adapter)
  - the Pinia tab store      (Group Orchestrator: convertToNamed and friends)

Conventions of the embedding:
  - A JavaScript `Date` is its time value in milliseconds since the Unix
    epoch, an `Int`.  The valid time-value range is |t| ≤ 8.64e15
    (ECMA-262 21.4.1.1).  An Invalid Date (NaN time value) is modelled by
    the out-of-range sentinel `invalidDateSentinel`; see the comment there.
  - `Date.prototype.toISOString` and `new Date(string)` are modelled by
    an explicit proleptic-Gregorian calendar conversion (the standard
    era/year-of-era/day-of-year algorithm) plus fixed-width digit
    rendering into the ISO-8601 string, exactly the format ECMA-262
    prescribes (21.4.4.36, Date Time String Format with 'Z' offset and
    expanded years for years outside [0, 9999]).
  - The durable store object `{ [id]: wireGroup }` is an association list
    in insertion order; property write replaces in place, property add
    appends, matching JavaScript object semantics.
  - Async functions that can throw are `Except JsError`; a thrown
    JavaScript error is a `JsError` carrying its `name` and `message`.
-/

/-! ## Calendar model: days ⇄ proleptic-Gregorian civil date

Stages of the standard civil-from-days algorithm, as used by every
ECMA-262 implementation of `toISOString` (here in the era/year-of-era
formulation).  `z` counts days since 1970-01-01. -/

/-- Year of era (0..399) from day of era (0..146096). -/
def yoeOfDoe (doe : Nat) : Nat := (doe - doe / 1460 + doe / 36524 - doe / 146096) / 365

/-- Day of (March-based) year, 0..365, from day of era. -/
def doyOfDoe (doe : Nat) : Nat :=
  doe - (365 * yoeOfDoe doe + yoeOfDoe doe / 4 - yoeOfDoe doe / 100)

/-- March-based month index 0..11 (0 = March) from day of year. -/
def mpOfDoy (doy : Nat) : Nat := (5 * doy + 2) / 153

/-- Day of month 1..31 from day of year. -/
def dayOfDoy (doy : Nat) : Nat := doy - (153 * mpOfDoy doy + 2) / 5 + 1

/-- Civil month 1..12 from the March-based month index. -/
def monthOfMp (mp : Nat) : Nat := if mp < 10 then mp + 3 else mp - 9

/-- 400-year era of a day number (Euclidean division, as JS floor division). -/
def eraOfDays (z : Int) : Int := (z + 719468) / 146097

/-- Day of era 0..146096 of a day number. -/
def doeOfDays (z : Int) : Nat := (z + 719468 - eraOfDays z * 146097).toNat

/-- Civil month of a day number. -/
def monthOfDays (z : Int) : Nat := monthOfMp (mpOfDoy (doyOfDoe (doeOfDays z)))

/-- March-based year of a day number. -/
def marchYearOfDays (z : Int) : Int := (yoeOfDoe (doeOfDays z) : Int) + eraOfDays z * 400

/-- Civil year of a day number. -/
def yearOfDays (z : Int) : Int :=
  if monthOfDays z ≤ 2 then marchYearOfDays z + 1 else marchYearOfDays z

/-- Civil date (year, month 1..12, day 1..31) of a day number. -/
def civilFromDays (z : Int) : Int × Nat × Nat :=
  (yearOfDays z, monthOfDays z, dayOfDoy (doyOfDoe (doeOfDays z)))

/-- Day number of a civil date (inverse direction of `civilFromDays`). -/
def daysFromCivil (y : Int) (m d : Nat) : Int :=
  let yAdj : Int := if m ≤ 2 then y - 1 else y
  let era : Int := yAdj / 400
  let yoe : Nat := (yAdj - era * 400).toNat
  let doy : Nat := (153 * (if m > 2 then m - 3 else m + 9) + 2) / 5 + d - 1
  let doe : Nat := yoe * 365 + yoe / 4 - yoe / 100 + doy
  era * 146097 + (doe : Int) - 719468

/-! ## Millisecond timestamps ⇄ ISO field records -/

/-- Field decomposition of an ISO-8601 date-time at millisecond precision. -/
structure ISOFields where
  year : Int
  month : Nat
  day : Nat
  hour : Nat
  minute : Nat
  second : Nat
  milli : Nat
deriving DecidableEq

/-- Decompose a millisecond time value into ISO fields (the computation
behind `Date.prototype.toISOString`). -/
def msToFields (t : Int) : ISOFields :=
  let days : Int := t / 86400000
  let tod : Nat := (t % 86400000).toNat
  { year := (civilFromDays days).1
    month := (civilFromDays days).2.1
    day := (civilFromDays days).2.2
    hour := tod / 3600000
    minute := tod % 3600000 / 60000
    second := tod % 60000 / 1000
    milli := tod % 1000 }

/-- Recompose a millisecond time value from ISO fields (the computation
behind parsing a Date Time String, ECMA-262 MakeDay/MakeTime/MakeDate). -/
def fieldsToMs (f : ISOFields) : Int :=
  daysFromCivil f.year f.month f.day * 86400000 +
    ((f.hour * 3600000 + f.minute * 60000 + f.second * 1000 + f.milli : Nat) : Int)

/-! ## ISO field records ⇄ ISO-8601 strings -/

/-- Decimal digit character. -/
def digitChar (d : Nat) : Char := Char.ofNat (48 + d % 10)

/-- Fixed-width decimal rendering, most significant digit first. -/
def padDigits : Nat → Nat → List Char
  | 0, _ => []
  | k + 1, n => digitChar (n / 10 ^ k) :: padDigits k (n % 10 ^ k)

/-- Decimal digit test. -/
def isDigitChar (c : Char) : Bool := '0' ≤ c && c ≤ '9'

/-- Value of a decimal digit character. -/
def digitVal (c : Char) : Nat := c.toNat - 48

/-- Read exactly `k` decimal digits, Horner-style, returning the value and
the rest of the input. -/
def readDigits : Nat → Nat → List Char → Option (Nat × List Char)
  | acc, 0, cs => some (acc, cs)
  | _, _ + 1, [] => none
  | acc, k + 1, c :: cs =>
    if isDigitChar c then readDigits (acc * 10 + digitVal c) k cs else none

/-- Year field of the ISO string: four digits for years 0..9999, sign and
six digits (expanded year) otherwise, per ECMA-262 Date Time String Format. -/
def formatYear (y : Int) : List Char :=
  if 0 ≤ y ∧ y ≤ 9999 then padDigits 4 y.toNat
  else if y < 0 then '-' :: padDigits 6 (-y).toNat
  else '+' :: padDigits 6 y.toNat

/-- Render ISO fields as the character list of the ISO-8601 string
`YYYY-MM-DDTHH:mm:ss.sssZ` (with expanded year where applicable). -/
def isoFormat (f : ISOFields) : List Char :=
  formatYear f.year ++ '-' :: padDigits 2 f.month ++ '-' :: padDigits 2 f.day ++
    'T' :: padDigits 2 f.hour ++ ':' :: padDigits 2 f.minute ++ ':' :: padDigits 2 f.second ++
    '.' :: padDigits 3 f.milli ++ ['Z']

/-- The string produced by `date.toISOString()` for time value `t`. -/
def isoStringOfMs (t : Int) : String := ⟨isoFormat (msToFields t)⟩

/-- Consume one expected character. -/
def expectChar (c : Char) (cs : List Char) : Option (List Char) :=
  match cs with
  | [] => none
  | d :: rest => if d = c then some rest else none

/-- Parse the year field: sign plus six digits (expanded year), or four digits. -/
def parseYearChars (cs : List Char) : Option (Int × List Char) :=
  if cs.head? = some '+' then (readDigits 0 6 cs.tail).map (fun p => ((p.1 : Int), p.2))
  else if cs.head? = some '-' then (readDigits 0 6 cs.tail).map (fun p => (-(p.1 : Int), p.2))
  else (readDigits 0 4 cs).map (fun p => ((p.1 : Int), p.2))

/-- Parse the character list of an ISO-8601 date-time string with 'Z'
offset into a millisecond time value.  Models `new Date(s)` restricted to
the Date Time String Format that `toISOString` emits; strings outside the
grammar yield `none` (an Invalid Date). -/
def parseISOChars (cs : List Char) : Option Int := do
  let (y, cs) ← parseYearChars cs
  let cs ← expectChar '-' cs
  let (mo, cs) ← readDigits 0 2 cs
  let cs ← expectChar '-' cs
  let (d, cs) ← readDigits 0 2 cs
  let cs ← expectChar 'T' cs
  let (h, cs) ← readDigits 0 2 cs
  let cs ← expectChar ':' cs
  let (mi, cs) ← readDigits 0 2 cs
  let cs ← expectChar ':' cs
  let (s, cs) ← readDigits 0 2 cs
  let cs ← expectChar '.' cs
  let (ms, cs) ← readDigits 0 3 cs
  let cs ← expectChar 'Z' cs
  if cs = [] then
    some (fieldsToMs { year := y, month := mo, day := d,
                       hour := h, minute := mi, second := s, milli := ms })
  else none

/-- Time value of an Invalid Date.  JavaScript uses NaN; the model uses a
sentinel strictly above every valid time value, which reproduces the one
comparison the code performs on it (`local >= NaN` is false, and
`local >= sentinel` is false for every valid `local`). -/
def invalidDateSentinel : Int := 8640000000000001

/-- Time value of `new Date(s)` for a string `s`: the parsed value, or the
Invalid Date sentinel when the string does not parse. -/
def parseDateMs (s : String) : Int := (parseISOChars s.data).getD invalidDateSentinel

/-- A millisecond time value a JavaScript Date can hold (ECMA-262 21.4.1.1). -/
def validTimeValue (t : Int) : Prop := -8640000000000000 ≤ t ∧ t ≤ 8640000000000000

instance (t : Int) : Decidable (validTimeValue t) := by
  unfold validTimeValue; infer_instance

/-! ## JavaScript string helpers used by the code -/

/-- Model of `String.prototype.includes`. -/
def containsSub (s pat : String) : Bool :=
  s.data.tails.any (fun t => pat.data.isPrefixOf t)

/-- Model of `String.prototype.startsWith`. -/
def jsStartsWith (s pat : String) : Bool := pat.data.isPrefixOf s.data

/-- White space removed by `String.prototype.trim` (ASCII portion of the
ECMA-262 WhiteSpace and LineTerminator productions). -/
def isTrimmedChar (c : Char) : Bool :=
  c = ' ' || c = '\t' || c = '\n' || c = '\r' || c = '\x0b' || c = '\x0c'

/-- Model of `String.prototype.trim`. -/
def jsTrim (s : String) : String :=
  ⟨((s.data.dropWhile isTrimmedChar).reverse.dropWhile isTrimmedChar).reverse⟩

/-- A thrown JavaScript `Error`, by its `name` and `message`. -/
structure JsError where
  name : String
  message : String
deriving DecidableEq

deriving instance DecidableEq for Except

/-! ## Data model (src/types/TabGroup.ts) -/

/-- TabItem: an individual tab within a tab group. -/
structure TabItem where
  id : String
  url : String
  title : String
  faviconUrl : Option String
deriving DecidableEq

/-- TabGroup (in-memory form): `name` is `none` for History groups,
`createdAt` is the Date's millisecond time value. -/
structure TabGroup where
  id : String
  name : Option String
  createdAt : Int
  tabs : List TabItem
  isHistory : Bool
deriving DecidableEq

/-- Wire-format tab group, as persisted (src/types/Storage.ts schema):
`createdAt` is the ISO-8601 string. -/
structure StoredTabGroup where
  id : String
  name : Option String
  createdAt : String
  tabs : List TabItem
  isHistory : Bool
deriving DecidableEq

/-- The durable `tabGroups` record: a JavaScript object keyed by group id,
modelled as an association list in property-insertion order. -/
abbrev TabGroupsStore := List (String × StoredTabGroup)

/-- Property read `allGroups[id]`. -/
def getKey (store : TabGroupsStore) (k : String) : Option StoredTabGroup :=
  (store.find? (fun p => p.1 == k)).map (fun p => p.2)

/-- Property write `allGroups[id] = v`: replace in place, or append. -/
def setKey (store : TabGroupsStore) (k : String) (v : StoredTabGroup) : TabGroupsStore :=
  match store with
  | [] => [(k, v)]
  | (k0, v0) :: rest => if k0 == k then (k, v) :: rest else (k0, v0) :: setKey rest k v

/-- Property delete `delete allGroups[id]` (removes the first matching key). -/
def delKey (store : TabGroupsStore) (k : String) : TabGroupsStore :=
  match store with
  | [] => []
  | (k0, v0) :: rest => if k0 == k then rest else (k0, v0) :: delKey rest k

/-! ## Custom storage error types (src/utils/storage.ts lines 19-31) -/

/-- The `StorageQuotaExceededError` thrown by the retry wrapper. -/
def storageQuotaExceededError (message : String) : JsError :=
  ⟨"StorageQuotaExceededError", message⟩

/-- The generic `Error` thrown when a group id is absent. -/
def groupNotFoundError (id : String) : JsError :=
  ⟨"Error", "Tab group with id " ++ id ++ " not found"⟩

/-- The generic `Error` thrown when a tab id is absent from a group. -/
def tabInGroupNotFoundError (tabId groupId : String) : JsError :=
  ⟨"Error", "Tab with id " ++ tabId ++ " not found in group " ++ groupId⟩

/-! ## Retry controller (src/utils/storage.ts lines 36-77) -/

/-- RETRY_CONFIG constants. -/
structure RetryConfig where
  maxRetries : Nat
  initialDelay : Nat
  maxDelay : Nat
  backoffMultiplier : Nat
deriving DecidableEq

/-- The retry configuration of the code. -/
def RETRY_CONFIG : RetryConfig :=
  { maxRetries := 3, initialDelay := 100, maxDelay := 2000, backoffMultiplier := 2 }

/-- Quota classification of an error message:
`message.includes('QUOTA_BYTES') || message.includes('quota')`. -/
def isQuotaMessage (m : String) : Bool :=
  containsSub m "QUOTA_BYTES" || containsSub m "quota"

/-- The backoff delay computed before retrying after attempt `attempt`:
`min(initialDelay * backoffMultiplier ** attempt, maxDelay)`. -/
def retryDelay (attempt : Nat) : Nat :=
  min (RETRY_CONFIG.initialDelay * RETRY_CONFIG.backoffMultiplier ^ attempt) RETRY_CONFIG.maxDelay

/-- Outcome of a `withRetry` run: the returned value or the thrown error,
together with the list of backoff delays that were awaited. -/
inductive RetryOutcome (α : Type) where
  | success (val : α) (delays : List Nat)
  | failure (err : JsError) (delays : List Nat)
deriving DecidableEq

/-- One spin of the `withRetry` loop.  `op n` is the outcome of the n-th
attempt of the wrapped operation; `remaining` counts the attempts left
after the current one (so `remaining = 0` exactly when
`attempt === retries`, the loop's break-and-rethrow case). -/
def withRetryAux (op : Nat → Except JsError α) (attempt remaining : Nat)
    (delays : List Nat) : RetryOutcome α :=
  match op attempt with
  | .ok v => .success v delays
  | .error e =>
    if isQuotaMessage e.message then
      .failure (storageQuotaExceededError e.message) delays
    else
      match remaining with
      | 0 => .failure e delays
      | r + 1 => withRetryAux op (attempt + 1) r (delays ++ [retryDelay attempt])

/-- `withRetry(operation, retries)`. -/
def withRetry (op : Nat → Except JsError α) (retries : Nat) : RetryOutcome α :=
  withRetryAux op 0 retries []

/-! ## Serializer (src/utils/storage.ts lines 100-121) -/

/-- `serializeTabGroup`: Date → ISO string, all other fields pass through. -/
def serializeTabGroup (group : TabGroup) : StoredTabGroup :=
  { id := group.id
    name := group.name
    createdAt := isoStringOfMs group.createdAt
    tabs := group.tabs
    isHistory := group.isHistory }

/-- `deserializeTabGroup`: ISO string → Date, all other fields pass through. -/
def deserializeTabGroup (stored : StoredTabGroup) : TabGroup :=
  { id := stored.id
    name := stored.name
    createdAt := parseDateMs stored.createdAt
    tabs := stored.tabs
    isHistory := stored.isHistory }

/-! ## Conflict resolver (src/utils/storage.ts lines 82-95) -/

/-- `resolveSyncConflict(localGroup, remoteGroup)`: keep the version with
the larger `createdAt`; `localTimestamp >= remoteTimestamp` keeps the
incoming candidate. -/
def resolveSyncConflict (localGroup : TabGroup) (remoteGroup : StoredTabGroup) :
    StoredTabGroup :=
  let localTimestamp := localGroup.createdAt
  let remoteTimestamp := parseDateMs remoteGroup.createdAt
  if localTimestamp ≥ remoteTimestamp then serializeTabGroup localGroup else remoteGroup

/-! ## Repository operation bodies (src/utils/storage.ts lines 126-219)

Each `...Body` is the closure passed to `withRetry`, acting on the store
snapshot the closure reads; the exported operation wraps it in the retry
controller.  The body is deterministic in the store, which models the
single-writer retry window (the durable store does not change between the
attempts of one operation). -/

/-- Body of `saveTabGroup`: upsert by id, resolving a conflict when the id
is already occupied. -/
def saveTabGroupBody (store : TabGroupsStore) (group : TabGroup) : TabGroupsStore :=
  let serialized := serializeTabGroup group
  match getKey store group.id with
  | some existing => setKey store group.id (resolveSyncConflict group existing)
  | none => setKey store group.id serialized

/-- `saveTabGroup` with its retry wrapper (the body itself cannot throw). -/
def saveTabGroup (store : TabGroupsStore) (group : TabGroup) : RetryOutcome TabGroupsStore :=
  withRetry (fun _ => .ok (saveTabGroupBody store group)) RETRY_CONFIG.maxRetries

/-- `getTabGroups`: `Object.values(allGroups).map(deserializeTabGroup)`. -/
def getTabGroups (store : TabGroupsStore) : List TabGroup :=
  store.map (fun p => deserializeTabGroup p.2)

/-- `Partial<TabGroup>`: each field optionally present.  A present `name`
carries `Option String` because the TabGroup field is `string | null`. -/
structure TabGroupUpdate where
  id : Option String := none
  name : Option (Option String) := none
  createdAt : Option Int := none
  tabs : Option (List TabItem) := none
  isHistory : Option Bool := none
deriving DecidableEq

/-- Spread `{...existingGroup, ...updates}`: fields present in `updates`
override. -/
def applyUpdates (g : TabGroup) (u : TabGroupUpdate) : TabGroup :=
  { id := u.id.getD g.id
    name := u.name.getD g.name
    createdAt := u.createdAt.getD g.createdAt
    tabs := u.tabs.getD g.tabs
    isHistory := u.isHistory.getD g.isHistory }

/-- Body of `updateTabGroup`: deserialize the existing record, spread the
updates over it, force `id` back to the existing id, serialize and store. -/
def updateTabGroupBody (store : TabGroupsStore) (id : String) (updates : TabGroupUpdate) :
    Except JsError TabGroupsStore :=
  match getKey store id with
  | none => .error (groupNotFoundError id)
  | some existing =>
    let existingGroup := deserializeTabGroup existing
    let updatedGroup := { applyUpdates existingGroup updates with id := existingGroup.id }
    .ok (setKey store id (serializeTabGroup updatedGroup))

/-- `updateTabGroup` with its retry wrapper. -/
def updateTabGroup (store : TabGroupsStore) (id : String) (updates : TabGroupUpdate) :
    RetryOutcome TabGroupsStore :=
  withRetry (fun _ => updateTabGroupBody store id updates) RETRY_CONFIG.maxRetries

/-- Body of `deleteTabGroup`. -/
def deleteTabGroupBody (store : TabGroupsStore) (id : String) :
    Except JsError TabGroupsStore :=
  match getKey store id with
  | none => .error (groupNotFoundError id)
  | some _ => .ok (delKey store id)

/-- `deleteTabGroup` with its retry wrapper. -/
def deleteTabGroup (store : TabGroupsStore) (id : String) : RetryOutcome TabGroupsStore :=
  withRetry (fun _ => deleteTabGroupBody store id) RETRY_CONFIG.maxRetries

/-- Body of `deleteTabFromGroup`: find the tab index by id and splice it
out of the group's tab array. -/
def deleteTabFromGroupBody (store : TabGroupsStore) (groupId tabId : String) :
    Except JsError TabGroupsStore :=
  match getKey store groupId with
  | none => .error (groupNotFoundError groupId)
  | some group =>
    match group.tabs.findIdx? (fun tab => tab.id == tabId) with
    | none => .error (tabInGroupNotFoundError tabId groupId)
    | some tabIndex =>
      .ok (setKey store groupId { group with tabs := group.tabs.eraseIdx tabIndex })

/-- `deleteTabFromGroup` with its retry wrapper. -/
def deleteTabFromGroup (store : TabGroupsStore) (groupId tabId : String) :
    RetryOutcome TabGroupsStore :=
  withRetry (fun _ => deleteTabFromGroupBody store groupId tabId) RETRY_CONFIG.maxRetries

/-! ## Tab session adapter (src/utils/tabManager.ts)

The host primitives (`browser.windows.getCurrent`, `browser.tabs.query`,
`browser.tabs.create`) and the WHATWG `URL` constructor are external to
the repository; the model takes the host's tab list and per-call creation
outcomes as parameters, and models of `new URL(u).protocol` the aspect
the code consumes: scheme extraction (lower-cased scheme followed by
':'), failing on inputs with no leading scheme. -/

/-- ASCII alphabetic character. -/
def isAsciiAlpha (c : Char) : Bool := ('a' ≤ c && c ≤ 'z') || ('A' ≤ c && c ≤ 'Z')

/-- Characters allowed after the first in a URL scheme. -/
def isSchemeChar (c : Char) : Bool :=
  isAsciiAlpha c || ('0' ≤ c && c ≤ '9') || c = '+' || c = '-' || c = '.'

/-- Model of `new URL(url).protocol`: the lower-cased scheme followed by
':', or `none` when `new URL` throws for a scheme-less input. -/
def urlProtocol (url : String) : Option String :=
  match url.data with
  | [] => none
  | c :: _ =>
    if isAsciiAlpha c then
      match url.data.dropWhile isSchemeChar with
      | ':' :: _ => some ⟨(url.data.takeWhile isSchemeChar).map Char.toLower ++ [':']⟩
      | _ => none
    else none

/-- A tab as reported by `browser.tabs.query`: the fields the code reads,
each optional as in the WebExtension `Tabs.Tab` type. -/
structure BrowserTab where
  url : Option String
  title : Option String
  favIconUrl : Option String
deriving DecidableEq

/-- The restricted-protocol list of `validateUrl` (tabManager.ts line 44). -/
def restrictedProtocols : List String :=
  ["chrome:", "chrome-extension:", "about:", "data:", "javascript:"]

/-- `validateUrl(url)` (tabManager.ts lines 40-50). -/
def validateUrl (url : String) : Bool :=
  match urlProtocol url with
  | none => false
  | some proto => !(restrictedProtocols.any (fun p => jsStartsWith proto p))

/-- The restricted-protocol list inside `captureCurrentWindow`'s filter
(tabManager.ts line 74) — note it is shorter than `restrictedProtocols`. -/
def captureRestrictedProtocols : List String := ["chrome:", "chrome-extension:", "about:"]

/-- The filter predicate of `captureCurrentWindow` (tabManager.ts lines 66-80). -/
def captureFilter (tab : BrowserTab) : Bool :=
  match tab.url with
  | none => false
  | some url =>
    match urlProtocol url with
    | none => false
    | some proto => !(captureRestrictedProtocols.any (fun p => jsStartsWith proto p))

/-- `captureCurrentWindow()` on a host tab list; `idGen i` is the value of
the i-th `crypto.randomUUID()` call. -/
def captureCurrentWindow (tabs : List BrowserTab) (idGen : Nat → String) : List TabItem :=
  (tabs.filter captureFilter).mapIdx (fun i tab =>
    { id := idGen i
      url := tab.url.getD ""
      title := (tab.title.getD "Untitled" : String)
      faviconUrl := tab.favIconUrl })

/-- `TabPermissionDeniedError` (tabManager.ts lines 16-21). -/
def tabPermissionDeniedError (url : String) : JsError :=
  ⟨"TabPermissionDeniedError", "Permission denied to access tab: " ++ url⟩

/-- Result of an `openTabs` run: the urls passed to `browser.tabs.create`
in call order, and the error the function raised, if any. -/
structure OpenTabsResult where
  attempts : List String
  raised : Option JsError
deriving DecidableEq

/-- The `for` loop of `openTabs` (tabManager.ts lines 107-128).  `create n`
is the outcome of the n-th `browser.tabs.create` call.  An item failing
`validateUrl` is skipped (logged only); a creation error whose message
contains 'permission' is re-thrown as `TabPermissionDeniedError`, aborting
the loop; any other creation error is logged and the loop continues. -/
def openTabsGo (create : Nat → Except JsError Unit) :
    List TabItem → Nat → List String → OpenTabsResult
  | [], _, acc => ⟨acc, none⟩
  | tab :: rest, n, acc =>
    if !validateUrl tab.url then openTabsGo create rest n acc
    else
      match create n with
      | .ok _ => openTabsGo create rest (n + 1) (acc ++ [tab.url])
      | .error e =>
        if containsSub e.message "permission" then
          ⟨acc ++ [tab.url], some (tabPermissionDeniedError tab.url)⟩
        else openTabsGo create rest (n + 1) (acc ++ [tab.url])

/-- `openTabs(tabs)` under a host whose n-th creation call yields
`create n` (window lookup assumed to succeed). -/
def openTabs (tabs : List TabItem) (create : Nat → Except JsError Unit) : OpenTabsResult :=
  openTabsGo create tabs 0 []

/-! ## Group orchestrator (Pinia tab store)

`handleError` reports and then re-throws the original error, so every
error of the storage layer propagates unchanged through the store
actions; the state-level effect of each action on the durable store is
its repository call.  `convertToNamed` additionally validates the name
before calling the repository. -/

/-- The `Error('Group name cannot be empty')` thrown by `convertToNamed`. -/
def groupNameEmptyError : JsError := ⟨"Error", "Group name cannot be empty"⟩

/-- `convertToNamed(groupId, name)` (tab store lines 167-181), effect on
the durable store: validation, then
`updateTabGroup(groupId, {name: name.trim(), isHistory: false})`. -/
def convertToNamed (store : TabGroupsStore) (groupId name : String) :
    Except JsError (RetryOutcome TabGroupsStore) :=
  if name == "" || (jsTrim name).length == 0 then .error groupNameEmptyError
  else .ok (updateTabGroup store groupId
    { name := some (some (jsTrim name)), isHistory := some false })

/-- Specification-side predicate for the amended capture claim: a host tab
is kept iff it has a URL whose scheme parses and whose protocol is not
prefixed by `chrome:`, `chrome-extension:` or `about:`.  Written from the
amended claim's words, to be compared with the source-side filter. -/
def captureKeepSpec (tab : BrowserTab) : Bool :=
  match tab.url with
  | none => false
  | some url =>
    match urlProtocol url with
    | none => false
    | some proto =>
      !(jsStartsWith proto "chrome:" || jsStartsWith proto "chrome-extension:" ||
        jsStartsWith proto "about:")

/-- Specification-side shape of a captured item: url, title and favicon
preserved, title defaulting to "Untitled", the given fresh id. -/
def captureItemSpec (idv : String) (tab : BrowserTab) : TabItem :=
  { id := idv
    url := tab.url.getD ""
    title := tab.title.getD "Untitled"
    faviconUrl := tab.favIconUrl }

/-! ## Calendar round-trip -/

set_option maxHeartbeats 8000000 in
/-- Range facts for year-of-era and day-of-year within one 400-year era. -/
theorem yoeOfDoe_spec (doe : Nat) (h : doe < 146097) :
    yoeOfDoe doe ≤ 399 ∧
    365 * yoeOfDoe doe + yoeOfDoe doe / 4 - yoeOfDoe doe / 100 ≤ doe ∧
    doyOfDoe doe ≤ 365 := by
  unfold doyOfDoe yoeOfDoe
  have hq : doe / 1460 ≤ 100 := by omega
  interval_cases hqv : (doe / 1460) <;>
  first
  | omega
  | (rcases Nat.lt_or_ge doe 36524 with h1 | h1 <;>
     rcases Nat.lt_or_ge doe 73048 with h2 | h2 <;>
     rcases Nat.lt_or_ge doe 109572 with h3 | h3 <;> omega)

/-- The civil month determines the March-based month index back. -/
theorem month_back (doy : Nat) (h : doy ≤ 365) :
    (if monthOfMp (mpOfDoy doy) > 2 then monthOfMp (mpOfDoy doy) - 3
     else monthOfMp (mpOfDoy doy) + 9) = mpOfDoy doy ∧
    (monthOfMp (mpOfDoy doy) ≤ 2 ↔ 10 ≤ mpOfDoy doy) := by
  unfold monthOfMp mpOfDoy
  constructor
  · split_ifs <;> omega
  · split_ifs <;> omega

/-- Month index and day of month determine the day of year back. -/
theorem doy_back (doy : Nat) (h : doy ≤ 365) :
    (153 * mpOfDoy doy + 2) / 5 + dayOfDoy doy - 1 = doy := by
  unfold dayOfDoy mpOfDoy
  omega

/-- Day-number round trip through the civil date. -/
theorem daysFromCivil_civilFromDays (z : Int) :
    daysFromCivil (civilFromDays z).1 (civilFromDays z).2.1 (civilFromDays z).2.2 = z := by
  have hdoe_eq : (doeOfDays z : Int) = z + 719468 - eraOfDays z * 146097 := by
    unfold doeOfDays eraOfDays; omega
  have hdoe_lt : doeOfDays z < 146097 := by
    unfold doeOfDays eraOfDays; omega
  obtain ⟨hy1, hy2, hy3⟩ := yoeOfDoe_spec (doeOfDays z) hdoe_lt
  obtain ⟨hmb, hm2⟩ := month_back (doyOfDoe (doeOfDays z)) hy3
  have hdb := doy_back (doyOfDoe (doeOfDays z)) hy3
  have hdoy_eq : doyOfDoe (doeOfDays z)
      = doeOfDays z - (365 * yoeOfDoe (doeOfDays z) + yoeOfDoe (doeOfDays z) / 4
        - yoeOfDoe (doeOfDays z) / 100) := by unfold doyOfDoe; rfl
  show daysFromCivil (yearOfDays z) (monthOfDays z) (dayOfDoy (doyOfDoe (doeOfDays z))) = z
  unfold daysFromCivil
  dsimp only
  have hyAdj : (if monthOfDays z ≤ 2 then yearOfDays z - 1 else yearOfDays z)
      = marchYearOfDays z := by
    unfold yearOfDays; split_ifs <;> omega
  rw [hyAdj]
  have hera : marchYearOfDays z / 400 = eraOfDays z := by
    unfold marchYearOfDays; omega
  rw [hera]
  have hyoe : (marchYearOfDays z - eraOfDays z * 400).toNat = yoeOfDoe (doeOfDays z) := by
    unfold marchYearOfDays; omega
  rw [hyoe]
  unfold monthOfDays
  rw [hmb, hdb]
  omega

/-- Millisecond round trip through the ISO field decomposition. -/
theorem fieldsToMs_msToFields (t : Int) : fieldsToMs (msToFields t) = t := by
  unfold fieldsToMs msToFields
  dsimp only
  rw [daysFromCivil_civilFromDays]
  omega

/-! ## ISO string round-trip -/

/-- Digit characters are digits. -/
theorem digitChar_isDigit (d : Nat) : isDigitChar (digitChar d) = true := by
  unfold digitChar isDigitChar
  have h : d % 10 ≤ 9 := by omega
  interval_cases hd : (d % 10) <;> decide

/-- Reading back the value of a digit character. -/
theorem digitVal_digitChar (d : Nat) : digitVal (digitChar d) = d % 10 := by
  unfold digitChar digitVal
  have h : d % 10 ≤ 9 := by omega
  interval_cases hd : (d % 10) <;> decide

/-- A digit character is not the plus sign. -/
theorem digitChar_ne_plus (d : Nat) : ¬ digitChar d = '+' := by
  unfold digitChar
  have h : d % 10 ≤ 9 := by omega
  interval_cases hd : (d % 10) <;> decide

/-- A digit character is not the minus sign. -/
theorem digitChar_ne_minus (d : Nat) : ¬ digitChar d = '-' := by
  unfold digitChar
  have h : d % 10 ≤ 9 := by omega
  interval_cases hd : (d % 10) <;> decide

/-- Fixed-width rendering followed by fixed-width reading is the identity. -/
theorem readDigits_padDigits (k : Nat) : ∀ (acc n : Nat) (rest : List Char), n < 10 ^ k →
    readDigits acc k (padDigits k n ++ rest) = some (acc * 10 ^ k + n, rest) := by
  induction k with
  | zero =>
    intro acc n rest h
    have hz : acc * 10 ^ 0 + n = acc := by simp only [pow_zero]; omega
    simp only [padDigits, List.nil_append, readDigits, hz]
  | succ k ih =>
    intro acc n rest h
    have hP : (0 : Nat) < 10 ^ k := pow_pos (by norm_num) k
    have hsucc : 10 ^ (k + 1) = 10 ^ k * 10 := pow_succ 10 k
    have hd : n / 10 ^ k < 10 := Nat.div_lt_of_lt_mul (by omega)
    simp only [padDigits, List.cons_append, readDigits, digitChar_isDigit, if_true]
    rw [digitVal_digitChar, Nat.mod_eq_of_lt hd]
    rw [show (padDigits k (n % 10 ^ k)).append rest = padDigits k (n % 10 ^ k) ++ rest from rfl]
    rw [ih (acc * 10 + n / 10 ^ k) (n % 10 ^ k) rest (Nat.mod_lt _ hP)]
    have hdm : 10 ^ k * (n / 10 ^ k) + n % 10 ^ k = n := Nat.div_add_mod n (10 ^ k)
    have key : (acc * 10 + n / 10 ^ k) * 10 ^ k + n % 10 ^ k = acc * 10 ^ (k + 1) + n := by
      calc (acc * 10 + n / 10 ^ k) * 10 ^ k + n % 10 ^ k
          = acc * (10 ^ k * 10) + (10 ^ k * (n / 10 ^ k) + n % 10 ^ k) := by ring
        _ = acc * 10 ^ (k + 1) + n := by rw [hdm, ← hsucc]
    rw [key]

/-- Parsing back a formatted year. -/
theorem parseYearChars_formatYear (y : Int) (rest : List Char)
    (h1 : -999999 ≤ y) (h2 : y ≤ 999999) :
    parseYearChars (formatYear y ++ rest) = some (y, rest) := by
  unfold formatYear
  split_ifs with ha hb
  · have hn : y.toNat < 10 ^ 4 := by omega
    have hcons : padDigits 4 y.toNat ++ rest
        = digitChar (y.toNat / 10 ^ 3) :: (padDigits 3 (y.toNat % 10 ^ 3) ++ rest) := rfl
    unfold parseYearChars
    rw [hcons]
    rw [if_neg (by simp only [List.head?_cons, Option.some.injEq]; exact digitChar_ne_plus _),
      if_neg (by simp only [List.head?_cons, Option.some.injEq]; exact digitChar_ne_minus _)]
    rw [← hcons, readDigits_padDigits 4 0 y.toNat rest hn]
    simp only [Option.map_some', Option.some.injEq, Prod.mk.injEq]
    exact ⟨by omega, trivial⟩
  · have hn : (-y).toNat < 10 ^ 6 := by omega
    unfold parseYearChars
    rw [List.cons_append]
    rw [if_neg (by simp only [List.head?_cons, Option.some.injEq]; decide),
      if_pos (by simp only [List.head?_cons])]
    simp only [List.tail_cons]
    rw [readDigits_padDigits 6 0 (-y).toNat rest hn]
    simp only [Option.map_some', Option.some.injEq, Prod.mk.injEq]
    exact ⟨by omega, trivial⟩
  · have hn : y.toNat < 10 ^ 6 := by omega
    unfold parseYearChars
    rw [List.cons_append]
    rw [if_pos (by simp only [List.head?_cons])]
    simp only [List.tail_cons]
    rw [readDigits_padDigits 6 0 y.toNat rest hn]
    simp only [Option.map_some', Option.some.injEq, Prod.mk.injEq]
    exact ⟨by omega, trivial⟩

/-- Consuming the expected character. -/
theorem expectChar_cons (c : Char) (l : List Char) : expectChar c (c :: l) = some l := by
  simp [expectChar]

/-- Civil month bounds. -/
theorem month_le (doy : Nat) (h : doy ≤ 365) :
    1 ≤ monthOfMp (mpOfDoy doy) ∧ monthOfMp (mpOfDoy doy) ≤ 12 := by
  unfold monthOfMp mpOfDoy
  split_ifs <;> omega

/-- Day-of-month bounds. -/
theorem day_le (doy : Nat) (h : doy ≤ 365) : 1 ≤ dayOfDoy doy ∧ dayOfDoy doy ≤ 31 := by
  unfold dayOfDoy mpOfDoy
  omega

/-- Civil year bounds over the day range of valid time values. -/
theorem year_bounds (z : Int) (h1 : -100000000 ≤ z) (h2 : z ≤ 100000000) :
    -272001 ≤ yearOfDays z ∧ yearOfDays z ≤ 276000 := by
  have hdoe_lt : doeOfDays z < 146097 := by unfold doeOfDays eraOfDays; omega
  obtain ⟨hy1, -, -⟩ := yoeOfDoe_spec _ hdoe_lt
  unfold yearOfDays marchYearOfDays eraOfDays
  split_ifs <;> omega

/-- Field bounds of the decomposition of a valid time value. -/
theorem msToFields_bounds (t : Int) (h : validTimeValue t) :
    1 ≤ (msToFields t).month ∧ (msToFields t).month ≤ 12 ∧
    1 ≤ (msToFields t).day ∧ (msToFields t).day ≤ 31 ∧
    (msToFields t).hour ≤ 23 ∧ (msToFields t).minute ≤ 59 ∧
    (msToFields t).second ≤ 59 ∧ (msToFields t).milli ≤ 999 ∧
    -272001 ≤ (msToFields t).year ∧ (msToFields t).year ≤ 276000 := by
  obtain ⟨hlo, hhi⟩ := h
  have hdb1 : -100000000 ≤ t / 86400000 := by omega
  have hdb2 : t / 86400000 ≤ 100000000 := by omega
  have hdoe_lt : doeOfDays (t / 86400000) < 146097 := by unfold doeOfDays eraOfDays; omega
  obtain ⟨-, -, hy3⟩ := yoeOfDoe_spec _ hdoe_lt
  obtain ⟨hmo1, hmo2⟩ := month_le _ hy3
  obtain ⟨hda1, hda2⟩ := day_le _ hy3
  obtain ⟨hyr1, hyr2⟩ := year_bounds (t / 86400000) hdb1 hdb2
  refine ⟨hmo1, hmo2, hda1, hda2, ?_, ?_, ?_, ?_, hyr1, hyr2⟩
  · show (t % 86400000).toNat / 3600000 ≤ 23
    omega
  · show (t % 86400000).toNat % 3600000 / 60000 ≤ 59
    omega
  · show (t % 86400000).toNat % 60000 / 1000 ≤ 59
    omega
  · show (t % 86400000).toNat % 1000 ≤ 999
    omega

set_option maxHeartbeats 2000000 in
/-- Formatting ISO fields and parsing the string back recovers the
recomposed time value, for fields within the widths the format uses. -/
theorem parseISOChars_isoFormat (f : ISOFields)
    (hy1 : -999999 ≤ f.year) (hy2 : f.year ≤ 999999)
    (hmo : f.month < 100) (hda : f.day < 100) (hho : f.hour < 100)
    (hmi : f.minute < 100) (hse : f.second < 100) (hms : f.milli < 1000) :
    parseISOChars (isoFormat f) = some (fieldsToMs f) := by
  have e2 : (10 : Nat) ^ 2 = 100 := by norm_num
  have e3 : (10 : Nat) ^ 3 = 1000 := by norm_num
  unfold isoFormat
  simp only [List.cons_append, List.append_assoc]
  unfold parseISOChars
  rw [parseYearChars_formatYear f.year _ hy1 hy2]
  simp only [Option.bind_eq_bind, Option.some_bind]
  rw [expectChar_cons]
  simp only [Option.bind_eq_bind, Option.some_bind]
  rw [readDigits_padDigits 2 0 f.month _ (by omega)]
  simp only [Option.bind_eq_bind, Option.some_bind]
  rw [expectChar_cons]
  simp only [Option.bind_eq_bind, Option.some_bind]
  rw [readDigits_padDigits 2 0 f.day _ (by omega)]
  simp only [Option.bind_eq_bind, Option.some_bind]
  rw [expectChar_cons]
  simp only [Option.bind_eq_bind, Option.some_bind]
  rw [readDigits_padDigits 2 0 f.hour _ (by omega)]
  simp only [Option.bind_eq_bind, Option.some_bind]
  rw [expectChar_cons]
  simp only [Option.bind_eq_bind, Option.some_bind]
  rw [readDigits_padDigits 2 0 f.minute _ (by omega)]
  simp only [Option.bind_eq_bind, Option.some_bind]
  rw [expectChar_cons]
  simp only [Option.bind_eq_bind, Option.some_bind]
  rw [readDigits_padDigits 2 0 f.second _ (by omega)]
  simp only [Option.bind_eq_bind, Option.some_bind]
  rw [expectChar_cons]
  simp only [Option.bind_eq_bind, Option.some_bind]
  rw [readDigits_padDigits 3 0 f.milli _ (by omega)]
  simp only [Option.bind_eq_bind, Option.some_bind]
  rw [expectChar_cons]
  simp only [Option.bind_eq_bind, Option.some_bind]
  simp only [if_true, zero_mul, zero_add]

/-- Round trip of a valid time value through its ISO-8601 string. -/
theorem parseDateMs_isoStringOfMs (t : Int) (h : validTimeValue t) :
    parseDateMs (isoStringOfMs t) = t := by
  unfold parseDateMs isoStringOfMs
  rw [show (⟨isoFormat (msToFields t)⟩ : String).data = isoFormat (msToFields t) from rfl]
  obtain ⟨hm1, hm2, hd1, hd2, hh, hmi, hs, hms, hy1, hy2⟩ := msToFields_bounds t h
  rw [parseISOChars_isoFormat (msToFields t) (by omega) (by omega) (by omega) (by omega)
    (by omega) (by omega) (by omega) (by omega)]
  rw [Option.getD_some]
  exact fieldsToMs_msToFields t

/-- Helper: reading the key just written. -/
theorem getKey_setKey_self (store : TabGroupsStore) (k : String) (v : StoredTabGroup) :
    getKey (setKey store k v) k = some v := by
  induction store with
  | nil => simp [setKey, getKey, List.find?]
  | cons p rest ih =>
    obtain ⟨k0, v0⟩ := p
    simp only [setKey]
    cases hc : (k0 == k) with
    | true => simp [getKey, List.find?]
    | false =>
      simp only [Bool.false_eq_true, if_false, getKey, List.find?, hc]
      exact ih

/-- Helper: writing one key leaves every other key's value unchanged. -/
theorem getKey_setKey_ne (store : TabGroupsStore) (k k2 : String) (v : StoredTabGroup)
    (h : ¬ k2 = k) : getKey (setKey store k v) k2 = getKey store k2 := by
  have hkk2 : (k == k2) = false := beq_eq_false_iff_ne.mpr (fun e => h e.symm)
  induction store with
  | nil => simp [setKey, getKey, List.find?, hkk2]
  | cons p rest ih =>
    obtain ⟨k0, v0⟩ := p
    simp only [setKey]
    cases hc : (k0 == k) with
    | true =>
      have hk0 : k0 = k := by simpa using hc
      simp [getKey, List.find?, hkk2, hk0]
    | false =>
      simp only [Bool.false_eq_true, if_false, getKey, List.find?]
      cases hc2 : (k0 == k2) with
      | true => rfl
      | false => exact ih

/-- Helper: rewriting a key with the value it already holds is a no-op. -/
theorem setKey_getKey_self (store : TabGroupsStore) (k : String) (v : StoredTabGroup)
    (h : getKey store k = some v) : setKey store k v = store := by
  induction store with
  | nil => simp [getKey, List.find?] at h
  | cons p rest ih =>
    obtain ⟨k0, v0⟩ := p
    simp only [setKey]
    cases hc : (k0 == k) with
    | true =>
      have hk0 : k0 = k := by simpa using hc
      simp only [getKey, List.find?, hc, Option.map_some', Option.some.injEq] at h
      simp [hk0, h]
    | false =>
      simp only [getKey, List.find?, hc] at h
      simp only [Bool.false_eq_true, if_false]
      rw [ih h]

/-- Serializer round trip at the record level, for valid timestamps. -/
theorem deserialize_serialize (g : TabGroup) (h : validTimeValue g.createdAt) :
    deserializeTabGroup (serializeTabGroup g) = g := by
  unfold deserializeTabGroup serializeTabGroup
  dsimp only
  rw [parseDateMs_isoStringOfMs g.createdAt h]

/-- Retry loop: a successful attempt returns at once. -/
theorem withRetryAux_ok (op : Nat → Except JsError α) (attempt remaining : Nat)
    (acc : List Nat) (v : α) (hop : op attempt = .ok v) :
    withRetryAux op attempt remaining acc = .success v acc := by
  unfold withRetryAux
  rw [hop]

/-- Retry loop: a quota-classified error is re-raised at once as
`StorageQuotaExceededError`, with no further attempts. -/
theorem withRetryAux_quota (op : Nat → Except JsError α) (attempt remaining : Nat)
    (acc : List Nat) (e : JsError) (hop : op attempt = .error e)
    (hq : isQuotaMessage e.message = true) :
    withRetryAux op attempt remaining acc
      = .failure (storageQuotaExceededError e.message) acc := by
  unfold withRetryAux
  rw [hop]
  simp [hq]

/-- Retry loop: when every attempt fails with a non-quota error, the loop
performs every attempt, sleeping the backoff delays in order, and re-raises
the error of the final attempt. -/
theorem withRetryAux_fail (op : Nat → Except JsError α) :
    ∀ (remaining attempt : Nat) (acc : List Nat) (elast : JsError),
    (∀ i, attempt ≤ i → i ≤ attempt + remaining →
      ∃ e, op i = .error e ∧ isQuotaMessage e.message = false) →
    op (attempt + remaining) = .error elast →
    withRetryAux op attempt remaining acc
      = .failure elast (acc ++ (List.range' attempt remaining).map retryDelay) := by
  intro remaining
  induction remaining with
  | zero =>
    intro attempt acc elast hall hlast
    rw [show attempt + 0 = attempt from rfl] at hlast
    obtain ⟨e, he, hq⟩ := hall attempt le_rfl (by omega)
    have hee : e = elast := by
      have := he.symm.trans hlast
      injection this
    subst hee
    unfold withRetryAux
    rw [he]
    simp [hq, List.range']
  | succ r ih =>
    intro attempt acc elast hall hlast
    obtain ⟨e, he, hq⟩ := hall attempt le_rfl (by omega)
    unfold withRetryAux
    rw [he]
    simp only [hq, Bool.false_eq_true, if_false]
    rw [ih (attempt + 1) (acc ++ [retryDelay attempt]) elast
      (fun i h1 h2 => hall i (by omega) (by omega))
      (by rw [show attempt + 1 + r = attempt + (r + 1) from by omega]; exact hlast)]
    rw [show List.range' attempt (r + 1) = attempt :: List.range' (attempt + 1) r from rfl]
    simp [List.append_assoc]

/-- Retry loop: a quota-classified error at attempt `k`, after non-quota
errors at every earlier attempt, is re-raised as
`StorageQuotaExceededError` right there, with only the earlier delays
slept. -/
theorem withRetryAux_quota_at (op : Nat → Except JsError α) :
    ∀ (k remaining attempt : Nat) (acc : List Nat) (e : JsError),
    k ≤ remaining →
    (∀ i, attempt ≤ i → i < attempt + k →
      ∃ e0, op i = .error e0 ∧ isQuotaMessage e0.message = false) →
    op (attempt + k) = .error e →
    isQuotaMessage e.message = true →
    withRetryAux op attempt remaining acc
      = .failure (storageQuotaExceededError e.message)
          (acc ++ (List.range' attempt k).map retryDelay) := by
  intro k
  induction k with
  | zero =>
    intro remaining attempt acc e hk hall hop hq
    rw [show attempt + 0 = attempt from rfl] at hop
    rw [withRetryAux_quota op attempt remaining acc e hop hq]
    simp [List.range']
  | succ j ih =>
    intro remaining attempt acc e hk hall hop hq
    obtain ⟨e0, he0, hq0⟩ := hall attempt le_rfl (by omega)
    obtain ⟨r, hr⟩ : ∃ r, remaining = r + 1 := ⟨remaining - 1, by omega⟩
    subst hr
    unfold withRetryAux
    rw [he0]
    simp only [hq0, Bool.false_eq_true, if_false]
    rw [ih r (attempt + 1) (acc ++ [retryDelay attempt]) e (by omega)
      (fun i h1 h2 => hall i (by omega) (by omega))
      (by rw [show attempt + 1 + j = attempt + (j + 1) from by omega]; exact hop) hq]
    rw [show List.range' attempt (j + 1) = attempt :: List.range' (attempt + 1) j from rfl]
    simp [List.append_assoc]

/-! ## Claims -/

/-- C1: conflict resolution on save.  For a candidate `g` and a stored
record `r` at `g.id`, `save` keeps the record with the strictly larger
`createdAt` (in ms); on a tie the incoming candidate wins.  Consequently
two saves of one id with `createdAt` T1 < T2, in either arrival order,
leave the record of the T2 save stored. -/
theorem C1_save_conflict_last_writer_wins :
    (∀ (store : TabGroupsStore) (g : TabGroup) (r : StoredTabGroup),
      getKey store g.id = some r →
      (parseDateMs r.createdAt > g.createdAt →
        getKey (saveTabGroupBody store g) g.id = some r) ∧
      (¬ parseDateMs r.createdAt > g.createdAt →
        getKey (saveTabGroupBody store g) g.id = some (serializeTabGroup g))) ∧
    (∀ (store : TabGroupsStore) (id : String) (g1 g2 : TabGroup),
      g1.id = id → g2.id = id → getKey store id = none →
      validTimeValue g1.createdAt → validTimeValue g2.createdAt →
      g1.createdAt < g2.createdAt →
      getKey (saveTabGroupBody (saveTabGroupBody store g1) g2) id
        = some (serializeTabGroup g2) ∧
      getKey (saveTabGroupBody (saveTabGroupBody store g2) g1) id
        = some (serializeTabGroup g2)) := by
  have hbody : ∀ (store : TabGroupsStore) (g : TabGroup) (r : StoredTabGroup),
      getKey store g.id = some r →
      saveTabGroupBody store g = setKey store g.id (resolveSyncConflict g r) := by
    intro store g r hr
    unfold saveTabGroupBody
    rw [hr]
  have hbody0 : ∀ (store : TabGroupsStore) (g : TabGroup),
      getKey store g.id = none →
      saveTabGroupBody store g = setKey store g.id (serializeTabGroup g) := by
    intro store g hr
    unfold saveTabGroupBody
    rw [hr]
  constructor
  · intro store g r hr
    rw [hbody store g r hr]
    constructor
    · intro hgt
      rw [getKey_setKey_self]
      unfold resolveSyncConflict
      rw [if_neg (by omega)]
    · intro hle
      rw [getKey_setKey_self]
      unfold resolveSyncConflict
      rw [if_pos (by omega)]
  · intro store id g1 g2 h1 h2 hnone hv1 hv2 hlt
    constructor
    · rw [hbody0 store g1 (h1 ▸ hnone)]
      have hr2 : getKey (setKey store g1.id (serializeTabGroup g1)) g2.id
          = some (serializeTabGroup g1) := by
        rw [h1, h2, getKey_setKey_self]
      rw [hbody _ g2 _ hr2, h2, getKey_setKey_self]
      unfold resolveSyncConflict
      rw [show (serializeTabGroup g1).createdAt = isoStringOfMs g1.createdAt from rfl,
        parseDateMs_isoStringOfMs g1.createdAt hv1, if_pos (by omega)]
    · rw [hbody0 store g2 (h2 ▸ hnone)]
      have hr1 : getKey (setKey store g2.id (serializeTabGroup g2)) g1.id
          = some (serializeTabGroup g2) := by
        rw [h1, h2, getKey_setKey_self]
      rw [hbody _ g1 _ hr1, h1, getKey_setKey_self]
      unfold resolveSyncConflict
      rw [show (serializeTabGroup g2).createdAt = isoStringOfMs g2.createdAt from rfl,
        parseDateMs_isoStringOfMs g2.createdAt hv2, if_neg (by omega)]

/-- C1 witness: two saves of id "g1" with createdAt 0 < 1000, discharged at
a concrete store. -/
theorem C1_witness :
    getKey (saveTabGroupBody (saveTabGroupBody []
        ⟨"g1", none, 0, [], true⟩) ⟨"g1", some "n", 1000, [], false⟩) "g1"
      = some (serializeTabGroup ⟨"g1", some "n", 1000, [], false⟩) :=
  (C1_save_conflict_last_writer_wins.2 [] "g1"
    ⟨"g1", none, 0, [], true⟩ ⟨"g1", some "n", 1000, [], false⟩
    rfl rfl rfl (by decide) (by decide) (by decide)).1

/-- C4: serialization round trip.  For every TabGroup with a valid
timestamp, deserializing its serialization restores it exactly: id, name,
isHistory, the tab list (count, order and fields) and createdAt to
millisecond precision. -/
theorem C4_serialization_round_trip (g : TabGroup) (h : validTimeValue g.createdAt) :
    deserializeTabGroup (serializeTabGroup g) = g :=
  deserialize_serialize g h

/-- C4 witness: round trip of a concrete group with a millisecond-precise
timestamp. -/
theorem C4_witness :
    deserializeTabGroup (serializeTabGroup
        ⟨"g1", some "research", 1700000000123, [⟨"t1", "https://a.example/", "A", some "https://a.example/icon.png"⟩], false⟩)
      = ⟨"g1", some "research", 1700000000123, [⟨"t1", "https://a.example/", "A", some "https://a.example/icon.png"⟩], false⟩ :=
  C4_serialization_round_trip
    ⟨"g1", some "research", 1700000000123, [⟨"t1", "https://a.example/", "A", some "https://a.example/icon.png"⟩], false⟩
    (by decide)

/-- C10: silent discard of a losing save.  When the stored record at
`g.id` has the strictly larger `createdAt`, `saveTabGroup` completes
successfully on its first attempt (no error, no retry) and the store —
the record at `g.id` and every other record alike — is left completely
unchanged. -/
theorem C10_losing_save_silent_discard (store : TabGroupsStore) (g : TabGroup)
    (r : StoredTabGroup) (hr : getKey store g.id = some r)
    (hgt : parseDateMs r.createdAt > g.createdAt) :
    saveTabGroup store g = .success store [] := by
  have hbody1 : saveTabGroupBody store g = setKey store g.id (resolveSyncConflict g r) := by
    unfold saveTabGroupBody
    rw [hr]
  have hbody : saveTabGroupBody store g = store := by
    rw [hbody1]
    unfold resolveSyncConflict
    rw [if_neg (by omega)]
    exact setKey_getKey_self store g.id r hr
  unfold saveTabGroup withRetry
  simp only [hbody]
  exact withRetryAux_ok _ 0 _ _ _ rfl

/-- C10 witness: a losing save against a concrete newer stored record. -/
theorem C10_witness :
    saveTabGroup [("g1", serializeTabGroup ⟨"g1", some "n", 86400000, [], false⟩)]
        ⟨"g1", none, 0, [], true⟩
      = .success [("g1", serializeTabGroup ⟨"g1", some "n", 86400000, [], false⟩)] [] :=
  C10_losing_save_silent_discard
    [("g1", serializeTabGroup ⟨"g1", some "n", 86400000, [], false⟩)]
    ⟨"g1", none, 0, [], true⟩
    (serializeTabGroup ⟨"g1", some "n", 86400000, [], false⟩)
    (by decide) (by decide)

/-- C2: the retry controller.  A quota-classified error (by message) at
any attempt is re-raised right there as `StorageQuotaExceededError`
without further attempts; any other error is retried up to
`RETRY_CONFIG.maxRetries` times, sleeping
`min(initialDelay * backoffMultiplier ^ attempt, maxDelay)` before each
retry, and when every attempt fails, the error of the last attempt is
re-raised unchanged. -/
theorem C2_retry_controller :
    (∀ (op : Nat → Except JsError TabGroupsStore) (k : Nat) (e : JsError),
      k ≤ RETRY_CONFIG.maxRetries →
      (∀ i, i < k → ∃ e0, op i = .error e0 ∧ isQuotaMessage e0.message = false) →
      op k = .error e → isQuotaMessage e.message = true →
      withRetry op RETRY_CONFIG.maxRetries
        = .failure (storageQuotaExceededError e.message)
            ((List.range' 0 k).map retryDelay)) ∧
    (∀ (op : Nat → Except JsError TabGroupsStore) (elast : JsError),
      (∀ i, i ≤ RETRY_CONFIG.maxRetries →
        ∃ e0, op i = .error e0 ∧ isQuotaMessage e0.message = false) →
      op RETRY_CONFIG.maxRetries = .error elast →
      withRetry op RETRY_CONFIG.maxRetries
        = .failure elast ((List.range' 0 RETRY_CONFIG.maxRetries).map retryDelay)) ∧
    (∀ i, retryDelay i
      = min (RETRY_CONFIG.initialDelay * RETRY_CONFIG.backoffMultiplier ^ i)
          RETRY_CONFIG.maxDelay) := by
  refine ⟨?_, ?_, fun i => rfl⟩
  · intro op k e hk hall hop hq
    unfold withRetry
    rw [withRetryAux_quota_at op k RETRY_CONFIG.maxRetries 0 [] e hk
      (fun i h1 h2 => hall i (by omega))
      (by rw [Nat.zero_add]; exact hop) hq]
    rw [List.nil_append]
  · intro op elast hall hop
    unfold withRetry
    rw [withRetryAux_fail op RETRY_CONFIG.maxRetries 0 [] elast
      (fun i h1 h2 => hall i (by omega))
      (by rw [Nat.zero_add]; exact hop)]
    rw [List.nil_append]

/-- C2 witness: an operation failing every attempt with a non-quota error
is retried three times with the delays 100, 200, 400 and the last error is
re-raised unchanged. -/
theorem C2_witness :
    withRetry (fun _ => (.error ⟨"Error", "disk failure"⟩ : Except JsError TabGroupsStore))
        RETRY_CONFIG.maxRetries
      = .failure ⟨"Error", "disk failure"⟩ [100, 200, 400] :=
  (C2_retry_controller.2.1 (fun _ => .error ⟨"Error", "disk failure"⟩)
    ⟨"Error", "disk failure"⟩
    (fun i _ => ⟨⟨"Error", "disk failure"⟩, rfl, by decide⟩) rfl).trans (by decide)

/-- C3 counterexample: a NotFound domain error is not exempted from the
retry loop — `updateTabGroup` on a missing id performs all three backoff
retries (sleeping 100, 200 and 400 ms) before the NotFound error
propagates, contradicting "never retried, propagates immediately". -/
theorem C3_counterexample :
    updateTabGroup [] "g1" {} = .failure (groupNotFoundError "g1") [100, 200, 400] ∧
    ¬ updateTabGroup [] "g1" {} = .failure (groupNotFoundError "g1") [] := by
  constructor <;> decide

/-- C3 amended: `QuotaExceeded` is never retried and propagates at once;
the domain errors NotFound (update on a missing group id) and TabNotFound
(deleteTab on a missing tab id) do propagate unchanged to the caller, but
only after the full retry budget — `maxRetries` retries with the backoff
delays — rather than immediately (their messages are not quota-classified,
which requires the ids involved not to contain a quota marker). -/
theorem C3_domain_errors_retried_then_propagated :
    (∀ (store : TabGroupsStore) (id : String) (u : TabGroupUpdate),
      getKey store id = none →
      isQuotaMessage (groupNotFoundError id).message = false →
      updateTabGroup store id u
        = .failure (groupNotFoundError id)
            ((List.range' 0 RETRY_CONFIG.maxRetries).map retryDelay)) ∧
    (∀ (store : TabGroupsStore) (groupId tabId : String) (r : StoredTabGroup),
      getKey store groupId = some r →
      r.tabs.findIdx? (fun tab => tab.id == tabId) = none →
      isQuotaMessage (tabInGroupNotFoundError tabId groupId).message = false →
      deleteTabFromGroup store groupId tabId
        = .failure (tabInGroupNotFoundError tabId groupId)
            ((List.range' 0 RETRY_CONFIG.maxRetries).map retryDelay)) ∧
    (∀ (op : Nat → Except JsError TabGroupsStore) (e : JsError),
      op 0 = .error e → isQuotaMessage e.message = true →
      withRetry op RETRY_CONFIG.maxRetries
        = .failure (storageQuotaExceededError e.message) []) := by
  refine ⟨?_, ?_, ?_⟩
  · intro store id u hnone hq
    have hbody : updateTabGroupBody store id u = .error (groupNotFoundError id) := by
      unfold updateTabGroupBody
      rw [hnone]
    unfold updateTabGroup withRetry
    rw [withRetryAux_fail _ RETRY_CONFIG.maxRetries 0 [] _
      (fun i h1 h2 => ⟨groupNotFoundError id, hbody, hq⟩) hbody]
    rw [List.nil_append]
  · intro store groupId tabId r hr hfind hq
    have hbody : deleteTabFromGroupBody store groupId tabId
        = .error (tabInGroupNotFoundError tabId groupId) := by
      unfold deleteTabFromGroupBody
      rw [hr]
      dsimp only
      rw [hfind]
    unfold deleteTabFromGroup withRetry
    rw [withRetryAux_fail _ RETRY_CONFIG.maxRetries 0 [] _
      (fun i h1 h2 => ⟨tabInGroupNotFoundError tabId groupId, hbody, hq⟩) hbody]
    rw [List.nil_append]
  · intro op e hop hq
    unfold withRetry
    exact withRetryAux_quota op 0 RETRY_CONFIG.maxRetries [] e hop hq

/-- C3 witness: deleteTab on a group without the named tab propagates
TabNotFound unchanged after the three backoff retries. -/
theorem C3_witness :
    deleteTabFromGroup [("g1", ⟨"g1", none, "1970-01-01T00:00:00.000Z", [], true⟩)] "g1" "t9"
      = .failure (tabInGroupNotFoundError "t9" "g1") [100, 200, 400] :=
  (C3_domain_errors_retried_then_propagated.2.1
    [("g1", ⟨"g1", none, "1970-01-01T00:00:00.000Z", [], true⟩)] "g1" "t9"
    ⟨"g1", none, "1970-01-01T00:00:00.000Z", [], true⟩
    (by decide) (by decide) (by decide)).trans (by decide)

/-- Helper: `findIdx?` finds the first match, at the split point. -/
theorem findIdxFirst {α : Type} (p : α → Bool) (pre : List α) (t : α) (post : List α)
    (hpre : ∀ x ∈ pre, p x = false) (ht : p t = true) :
    (pre ++ t :: post).findIdx? p = some pre.length := by
  induction pre with
  | nil => simp [ht]
  | cons a rest ih =>
    have ha : p a = false := hpre a (List.mem_cons_self a rest)
    have ih2 := ih (fun x hx => hpre x (List.mem_cons_of_mem a hx))
    simp only [List.cons_append, List.findIdx?_cons, ha, Bool.false_eq_true, if_false,
      Nat.zero_add, List.findIdx?_start_succ, ih2, Option.map_some', List.length_cons]

/-- Helper: `findIdx?` over a list with no match. -/
theorem findIdxNone {α : Type} (p : α → Bool) (l : List α)
    (h : ∀ x ∈ l, p x = false) : l.findIdx? p = none := by
  induction l with
  | nil => simp
  | cons a rest ih =>
    have ha : p a = false := h a (List.mem_cons_self a rest)
    simp only [List.findIdx?_cons, ha, Bool.false_eq_true, if_false, Nat.zero_add,
      List.findIdx?_start_succ, ih (fun x hx => h x (List.mem_cons_of_mem a hx)),
      Option.map_none']

/-- C7: deletion precision.  When the stored group at `groupId` holds the
tab `t` with `t.id = tabId` (and no earlier tab has that id), `deleteTab`
removes exactly that tab, keeping the remaining tabs in their original
order and every other field and every other stored group unchanged; it
fails with NotFound when `groupId` is absent and with TabNotFound when
the group exists but no tab has `tabId`. -/
theorem C7_deleteTab_precision :
    (∀ (store : TabGroupsStore) (groupId tabId : String) (r : StoredTabGroup)
       (pre post : List TabItem) (t : TabItem),
      getKey store groupId = some r →
      r.tabs = pre ++ t :: post →
      t.id = tabId →
      (∀ x ∈ pre, ¬ x.id = tabId) →
      deleteTabFromGroupBody store groupId tabId
        = .ok (setKey store groupId { r with tabs := pre ++ post }) ∧
      (∀ k, ¬ k = groupId →
        getKey (setKey store groupId { r with tabs := pre ++ post }) k = getKey store k)) ∧
    (∀ (store : TabGroupsStore) (groupId tabId : String),
      getKey store groupId = none →
      deleteTabFromGroupBody store groupId tabId = .error (groupNotFoundError groupId)) ∧
    (∀ (store : TabGroupsStore) (groupId tabId : String) (r : StoredTabGroup),
      getKey store groupId = some r →
      (∀ x ∈ r.tabs, ¬ x.id = tabId) →
      deleteTabFromGroupBody store groupId tabId
        = .error (tabInGroupNotFoundError tabId groupId)) := by
  refine ⟨?_, ?_, ?_⟩
  · intro store groupId tabId r pre post t hr htabs htid hpre
    have hfind : r.tabs.findIdx? (fun tab => tab.id == tabId) = some pre.length := by
      rw [htabs]
      exact findIdxFirst _ pre t post
        (fun x hx => beq_eq_false_iff_ne.mpr (hpre x hx)) (by simp [htid])
    have herase : r.tabs.eraseIdx pre.length = pre ++ post := by
      rw [htabs, List.eraseIdx_append_of_length_le (Nat.le_refl pre.length)]
      simp
    constructor
    · unfold deleteTabFromGroupBody
      rw [hr]
      dsimp only
      rw [hfind]
      dsimp only
      rw [herase]
    · intro k hk
      exact getKey_setKey_ne store groupId k _ hk
  · intro store groupId tabId hnone
    unfold deleteTabFromGroupBody
    rw [hnone]
  · intro store groupId tabId r hr hall
    unfold deleteTabFromGroupBody
    rw [hr]
    dsimp only
    rw [findIdxNone _ _ (fun x hx => beq_eq_false_iff_ne.mpr (hall x hx))]

/-- C7 witness: deleting the middle tab of a concrete three-tab group. -/
theorem C7_witness :
    deleteTabFromGroupBody
        [("g1", ⟨"g1", none, "1970-01-01T00:00:00.000Z",
          [⟨"t1", "https://a.example/", "A", none⟩, ⟨"t2", "https://b.example/", "B", none⟩,
           ⟨"t3", "https://c.example/", "C", none⟩], true⟩)] "g1" "t2"
      = .ok [("g1", ⟨"g1", none, "1970-01-01T00:00:00.000Z",
          [⟨"t1", "https://a.example/", "A", none⟩, ⟨"t3", "https://c.example/", "C", none⟩], true⟩)] :=
  ((C7_deleteTab_precision.1
    [("g1", ⟨"g1", none, "1970-01-01T00:00:00.000Z",
      [⟨"t1", "https://a.example/", "A", none⟩, ⟨"t2", "https://b.example/", "B", none⟩,
       ⟨"t3", "https://c.example/", "C", none⟩], true⟩)] "g1" "t2"
    ⟨"g1", none, "1970-01-01T00:00:00.000Z",
      [⟨"t1", "https://a.example/", "A", none⟩, ⟨"t2", "https://b.example/", "B", none⟩,
       ⟨"t3", "https://c.example/", "C", none⟩], true⟩
    [⟨"t1", "https://a.example/", "A", none⟩] [⟨"t3", "https://c.example/", "C", none⟩]
    ⟨"t2", "https://b.example/", "B", none⟩
    (by decide) rfl rfl (by decide)).1).trans (by decide)

/-- C6 counterexample: a partial update that contains `createdAt` does
change the stored record's `createdAt` — the code forces only `id` — so
"createdAt is never altered by update, for every partial-update record"
fails. -/
theorem C6_counterexample :
    updateTabGroupBody [("g1", serializeTabGroup ⟨"g1", none, 0, [], true⟩)] "g1"
        { createdAt := some 86400000 }
      = .ok [("g1", serializeTabGroup ⟨"g1", none, 86400000, [], true⟩)] ∧
    ¬ (serializeTabGroup ⟨"g1", none, 86400000, [], true⟩).createdAt
        = (serializeTabGroup ⟨"g1", none, 0, [], true⟩).createdAt := by
  constructor <;> decide

/-- C6 amended: `createdAt` is preserved by `update` for every partial
record that does not itself contain a `createdAt` field (and `id` can
never change); the code does not protect `createdAt` against a partial
that sets it. -/
theorem C6_createdAt_preserved_without_field (store : TabGroupsStore) (id : String)
    (u : TabGroupUpdate) (g0 : TabGroup)
    (hr : getKey store id = some (serializeTabGroup g0))
    (hv : validTimeValue g0.createdAt) (hu : u.createdAt = none) :
    updateTabGroupBody store id u
      = .ok (setKey store id (serializeTabGroup ({ applyUpdates g0 u with id := g0.id }))) ∧
    (serializeTabGroup ({ applyUpdates g0 u with id := g0.id })).createdAt
      = (serializeTabGroup g0).createdAt ∧
    (serializeTabGroup ({ applyUpdates g0 u with id := g0.id })).id
      = (serializeTabGroup g0).id := by
  refine ⟨?_, ?_, rfl⟩
  · unfold updateTabGroupBody
    rw [hr]
    dsimp only
    rw [deserialize_serialize g0 hv]
  · show isoStringOfMs (u.createdAt.getD g0.createdAt) = isoStringOfMs g0.createdAt
    rw [hu]
    rfl

/-- C6 witness: a rename-only partial leaves the stored `createdAt` (and
`id`) unchanged. -/
theorem C6_witness :
    updateTabGroupBody [("g1", serializeTabGroup ⟨"g1", none, 1700000000123, [], true⟩)] "g1"
        { name := some (some "renamed") }
      = .ok (setKey [("g1", serializeTabGroup ⟨"g1", none, 1700000000123, [], true⟩)] "g1"
          (serializeTabGroup ({ applyUpdates ⟨"g1", none, 1700000000123, [], true⟩
            { name := some (some "renamed") } with id := "g1" }))) :=
  (C6_createdAt_preserved_without_field
    [("g1", serializeTabGroup ⟨"g1", none, 1700000000123, [], true⟩)] "g1"
    { name := some (some "renamed") } ⟨"g1", none, 1700000000123, [], true⟩
    (by decide) (by decide) rfl).1

/-- C8: conversion to a named group.  A name that is empty or
whitespace-only after trimming is rejected with the validation error
before any repository call, leaving the store untouched; otherwise the
stored group keeps its id, createdAt and tabs, gets `isHistory := false`
and the trimmed name, and the update succeeds without retries. -/
theorem C8_convert_to_named :
    (∀ (store : TabGroupsStore) (groupId name : String),
      (jsTrim name).length = 0 →
      convertToNamed store groupId name = .error groupNameEmptyError) ∧
    (∀ (store : TabGroupsStore) (groupId name : String) (g0 : TabGroup),
      getKey store groupId = some (serializeTabGroup g0) →
      validTimeValue g0.createdAt →
      ¬ (jsTrim name).length = 0 →
      convertToNamed store groupId name
        = .ok (.success (setKey store groupId
            (serializeTabGroup
              { id := g0.id, name := some (jsTrim name), createdAt := g0.createdAt,
                tabs := g0.tabs, isHistory := false })) [])) := by
  constructor
  · intro store groupId name hlen
    unfold convertToNamed
    rw [if_pos (by simp [hlen])]
  · intro store groupId name g0 hr hv hlen
    have hcond : (name == "" || (jsTrim name).length == 0) = false := by
      cases hb : (name == "") with
      | true =>
        exact absurd (by rw [show name = "" from by simpa using hb]; rfl) hlen
      | false =>
        simp only [Bool.false_or, hb]
        exact beq_eq_false_iff_ne.mpr hlen
    have hbody : updateTabGroupBody store groupId
        { name := some (some (jsTrim name)), isHistory := some false }
        = .ok (setKey store groupId
            (serializeTabGroup
              { id := g0.id, name := some (jsTrim name), createdAt := g0.createdAt,
                tabs := g0.tabs, isHistory := false })) := by
      unfold updateTabGroupBody
      rw [hr]
      dsimp only
      rw [deserialize_serialize g0 hv]
      simp only [applyUpdates, Option.getD_some, Option.getD_none]
    have hrun : updateTabGroup store groupId
        { name := some (some (jsTrim name)), isHistory := some false }
        = .success (setKey store groupId
            (serializeTabGroup
              { id := g0.id, name := some (jsTrim name), createdAt := g0.createdAt,
                tabs := g0.tabs, isHistory := false })) [] := by
      unfold updateTabGroup withRetry
      simp only [hbody]
      exact withRetryAux_ok _ 0 _ _ _ rfl
    unfold convertToNamed
    rw [hcond]
    simp only [Bool.false_eq_true, if_false, hrun]

/-- C8 witness: converting a concrete history group with the name
" Research " stores the trimmed name "Research", `isHistory := false`, and
the original id, createdAt and tabs. -/
theorem C8_witness :
    convertToNamed [("g1", serializeTabGroup ⟨"g1", none, 1700000000123,
        [⟨"t1", "https://a.example/", "A", none⟩], true⟩)] "g1" " Research "
      = .ok (.success (setKey [("g1", serializeTabGroup ⟨"g1", none, 1700000000123,
          [⟨"t1", "https://a.example/", "A", none⟩], true⟩)] "g1"
          (serializeTabGroup
            { id := "g1", name := some (jsTrim " Research "), createdAt := 1700000000123,
              tabs := [⟨"t1", "https://a.example/", "A", none⟩], isHistory := false })) []) :=
  C8_convert_to_named.2
    [("g1", serializeTabGroup ⟨"g1", none, 1700000000123,
      [⟨"t1", "https://a.example/", "A", none⟩], true⟩)] "g1" " Research "
    ⟨"g1", none, 1700000000123, [⟨"t1", "https://a.example/", "A", none⟩], true⟩
    (by decide) (by decide) (by decide)

/-- C5 counterexample: `captureCurrentWindow` keeps `data:` and
`javascript:` tabs — its filter checks only `chrome:`,
`chrome-extension:` and `about:` — so "script/data URIs are all filtered
out" fails on the code. -/
theorem C5_counterexample :
    captureCurrentWindow
        [⟨some "data:text/html,x", some "D", none⟩,
         ⟨some "javascript:alert(1)", some "J", none⟩] (fun n => "id" ++ toString n)
      = [⟨"id0", "data:text/html,x", "D", none⟩, ⟨"id1", "javascript:alert(1)", "J", none⟩] ∧
    ¬ captureCurrentWindow
        [⟨some "data:text/html,x", some "D", none⟩,
         ⟨some "javascript:alert(1)", some "J", none⟩] (fun n => "id" ++ toString n)
      = [] := by
  constructor <;> decide

/-- C5 amended: `captureCurrentWindow` returns exactly the subset of host
tabs that have a URL whose scheme parses and whose protocol is not
prefixed by `chrome:`, `chrome-extension:` or `about:` (`data:` and
`javascript:` URIs are NOT filtered at capture), in original order,
preserving url, title and favicon, defaulting a missing title to
"Untitled", and assigning each result the freshly generated id of its
position. -/
theorem C5_capture_exact_subset (tabs : List BrowserTab) (idGen : Nat → String) :
    captureCurrentWindow tabs idGen
      = (tabs.filter captureKeepSpec).mapIdx (fun i tab => captureItemSpec (idGen i) tab) := by
  unfold captureCurrentWindow
  have hfil : tabs.filter captureFilter = tabs.filter captureKeepSpec := by
    apply List.filter_congr
    intro x hx
    unfold captureFilter captureKeepSpec captureRestrictedProtocols
    cases x.url with
    | none => rfl
    | some url =>
      dsimp only
      cases urlProtocol url with
      | none => rfl
      | some proto =>
        dsimp only
        simp [Bool.or_assoc]
  rw [hfil]
  rfl

/-- Helper: the `openTabs` loop under a host that never reports a
permission error: invalid items are skipped, every valid item is
attempted in order, and no error is raised. -/
theorem openTabsGo_no_perm (create : Nat → Except JsError Unit)
    (hnp : ∀ n e, create n = .error e → containsSub e.message "permission" = false) :
    ∀ (items : List TabItem) (n : Nat) (acc : List String),
    openTabsGo create items n acc
      = ⟨acc ++ (items.filter (fun t => validateUrl t.url)).map (fun t => t.url), none⟩ := by
  intro items
  induction items with
  | nil =>
    intro n acc
    simp [openTabsGo]
  | cons t rest ih =>
    intro n acc
    unfold openTabsGo
    cases hv : validateUrl t.url with
    | false =>
      simp only [hv, Bool.not_false, if_true, List.filter_cons, Bool.false_eq_true, if_false]
      exact ih n acc
    | true =>
      simp only [hv, Bool.not_true, Bool.false_eq_true, if_false, List.filter_cons, if_true]
      cases hc : create n with
      | ok v =>
        rw [ih (n + 1) (acc ++ [t.url])]
        simp [List.append_assoc]
      | error e =>
        dsimp only
        rw [hnp n e hc]
        simp only [Bool.false_eq_true, if_false]
        rw [ih (n + 1) (acc ++ [t.url])]
        simp [List.append_assoc]

/-- Helper: the `openTabs` loop aborts at a permission-classified
creation failure: the failing valid item is the last attempted, the items
after it are never attempted, and `TabPermissionDeniedError` is raised. -/
theorem openTabsGo_perm_abort (create : Nat → Except JsError Unit) :
    ∀ (items1 : List TabItem) (t : TabItem) (items2 : List TabItem) (n : Nat)
      (acc : List String) (e : JsError),
    (∀ x ∈ items1, validateUrl x.url = true) →
    (∀ m, n ≤ m → m < n + items1.length → create m = .ok ()) →
    validateUrl t.url = true →
    create (n + items1.length) = .error e →
    containsSub e.message "permission" = true →
    openTabsGo create (items1 ++ t :: items2) n acc
      = ⟨acc ++ items1.map (fun x => x.url) ++ [t.url],
         some (tabPermissionDeniedError t.url)⟩ := by
  intro items1
  induction items1 with
  | nil =>
    intro t items2 n acc e hvalid hok hvt he hperm
    unfold openTabsGo
    simp only [List.nil_append, hvt, Bool.not_true, Bool.false_eq_true, if_false]
    rw [show create n = .error e from by
      rw [show n = n + List.length [] from by simp]
      exact he]
    simp [hperm]
  | cons a rest ih =>
    intro t items2 n acc e hvalid hok hvt he hperm
    unfold openTabsGo
    have hva : validateUrl a.url = true := hvalid a (List.mem_cons_self a rest)
    simp only [List.cons_append, hva, Bool.not_true, Bool.false_eq_true, if_false]
    rw [hok n (Nat.le_refl n) (by simp)]
    rw [ih t items2 (n + 1) (acc ++ [a.url]) e
      (fun x hx => hvalid x (List.mem_cons_of_mem a hx))
      (fun m h1 h2 => hok m (by omega) (by simp at h2 ⊢; omega)) hvt
      (by rw [show n + 1 + rest.length = n + (a :: rest).length from by simp; omega]; exact he)
      hperm]
    simp [List.append_assoc]

/-- C9 counterexample: a permission-classified failure of one valid tab's
creation DOES abort the remaining creations — with two valid items and a
host refusing the first creation, `openTabs` raises
`TabPermissionDeniedError` and the second item is never attempted — so
"a failure to create one valid tab does not abort the creation of the
remaining tabs" fails on the code. -/
theorem C9_counterexample :
    openTabs [⟨"t1", "https://a.example/", "A", none⟩, ⟨"t2", "https://b.example/", "B", none⟩]
        (fun _ => .error ⟨"Error", "permission denied"⟩)
      = ⟨["https://a.example/"], some (tabPermissionDeniedError "https://a.example/")⟩ ∧
    ¬ (openTabs [⟨"t1", "https://a.example/", "A", none⟩, ⟨"t2", "https://b.example/", "B", none⟩]
        (fun _ => .error ⟨"Error", "permission denied"⟩)).attempts
      = ["https://a.example/", "https://b.example/"] := by
  constructor <;> decide

/-- C9 amended: items whose URL fails validation are skipped (never
attempted, nothing raised) while the remaining items are attempted as
background tabs in original order; a creation failure that is NOT
permission-classified does not abort the remaining creations and raises
nothing; but a permission-classified creation failure aborts the batch at
that point and raises `TabPermissionDeniedError` for the failing
validly-scoped item — the abort comes from the failing creation itself,
not from a separate upfront check. -/
theorem C9_openTabs_error_policy :
    (∀ (items : List TabItem) (create : Nat → Except JsError Unit),
      (∀ n e, create n = .error e → containsSub e.message "permission" = false) →
      openTabs items create
        = ⟨(items.filter (fun t => validateUrl t.url)).map (fun t => t.url), none⟩) ∧
    (∀ (items1 : List TabItem) (t : TabItem) (items2 : List TabItem)
       (create : Nat → Except JsError Unit) (e : JsError),
      (∀ x ∈ items1, validateUrl x.url = true) →
      (∀ m, m < items1.length → create m = .ok ()) →
      validateUrl t.url = true →
      create items1.length = .error e →
      containsSub e.message "permission" = true →
      openTabs (items1 ++ t :: items2) create
        = ⟨items1.map (fun x => x.url) ++ [t.url],
           some (tabPermissionDeniedError t.url)⟩) := by
  constructor
  · intro items create hnp
    unfold openTabs
    rw [openTabsGo_no_perm create hnp items 0 []]
    rw [List.nil_append]
  · intro items1 t items2 create e hvalid hok hvt he hperm
    unfold openTabs
    rw [openTabsGo_perm_abort create items1 t items2 0 [] e hvalid
      (fun m h1 h2 => hok m (by omega)) hvt (by rw [Nat.zero_add]; exact he) hperm]
    rw [List.nil_append]

/-- C9 witness: with one valid item created successfully and the next
valid item's creation refused for permissions, the batch stops there and
raises `TabPermissionDeniedError` for the refused item. -/
theorem C9_witness :
    openTabs [⟨"t1", "https://a.example/", "A", none⟩, ⟨"t2", "https://b.example/", "B", none⟩,
        ⟨"t3", "https://c.example/", "C", none⟩]
        (fun n => if n = 0 then .ok () else .error ⟨"Error", "permission denied"⟩)
      = ⟨["https://a.example/", "https://b.example/"],
         some (tabPermissionDeniedError "https://b.example/")⟩ :=
  (C9_openTabs_error_policy.2 [⟨"t1", "https://a.example/", "A", none⟩]
    ⟨"t2", "https://b.example/", "B", none⟩ [⟨"t3", "https://c.example/", "C", none⟩]
    (fun n => if n = 0 then .ok () else .error ⟨"Error", "permission denied"⟩)
    ⟨"Error", "permission denied"⟩
    (by decide)
    (fun m hm => by
      have hm0 : m = 0 := by simpa using hm
      rw [hm0]
      rfl)
    (by decide) rfl (by decide)).trans (by decide)
